import Mathlib

/-!
# InfraMind telemetry agent: collection loop and metrics-serving exporter

A shallow embedding of `agents/cpp_agent` (`agent.cpp`, `exporters/prometheus.cpp`,
`collectors/collector.hpp`, `exporters/exporter.hpp`) and the properties of its
specification that were checked against it.

Conventions of the embedding

* `std::string` is `String`; `std::less<std::string>` is the lexicographic comparison
  of the character sequences (`key_lt`); `size()` is `String.utf8ByteSize`.
* `double` is an abstract value type `V`: no property below computes on metric values.
  `operator<<(std::ostream&, double)` is a parameter `fmt : V → String`.
* `std::map<std::string, double>` is the list of its entries in iteration order, which
  for a map is strictly ascending key order (`StdMap.WF`).
* A call that may throw returns `Except String _`, the string being `e.what()`.
* A member function returns the updated object together with the list of the actions it
  performed (`Effect`): console output, thread start and join, socket I/O.
* What another thread or the operating system decides (the value of an atomic flag at a
  loop head, the result of a system call, the outcome of `collect()`) is an argument.
-/

namespace im

/-! ## `std::map<std::string, double>` -/

/-- Model of `std::less<std::string>`: lexicographic comparison of the characters. -/
def key_lt (a b : String) : Prop := a.data < b.data

instance key_lt_decidable : DecidableRel key_lt :=
  fun a b => inferInstanceAs (Decidable (a.data < b.data))

/-- Model of `std::map<std::string, double>`, as the list of entries in iteration order. -/
abbrev StdMap (V : Type) := List (String × V)

namespace StdMap

variable {V : Type}

/-- The keys of the map in iteration order. -/
def keys (m : StdMap V) : List String := m.map Prod.fst

/-- Representation invariant of `std::map`: keys strictly ascending (hence unique). -/
def WF (m : StdMap V) : Prop := m.keys.Pairwise key_lt

instance WF_decidable (m : StdMap V) : Decidable m.WF :=
  inferInstanceAs (Decidable (List.Pairwise key_lt (m.keys)))

/-- Model of `std::map::find`, returning the mapped value if the key is present. -/
def find (m : StdMap V) (k : String) : Option V := List.lookup k m

/-- Model of `std::map::insert(const value_type&)`: the entry is added at its sorted
position when no entry with an equivalent key exists; otherwise the map is unchanged. -/
def insert : StdMap V → String → V → StdMap V
  | [], k, v => [(k, v)]
  | (k', v') :: rest, k, v =>
    if key_lt k k' then (k, v) :: (k', v') :: rest
    else if key_lt k' k then (k', v') :: insert rest k v
    else (k', v') :: rest

/-- Model of `std::map::insert(first, last)`: inserts each element of the range in
order, as `insert` does (`all_metrics.gauges.insert(metrics.gauges.begin(),
metrics.gauges.end())`, agent.cpp line 83). -/
def insert_range (m src : StdMap V) : StdMap V :=
  src.foldl (fun acc kv => acc.insert kv.1 kv.2) m

end StdMap

/-! ## `struct Metrics` (collector.hpp) -/

/-- Model of `struct Metrics`: a default-constructed value has two empty maps. -/
structure Metrics (V : Type) where
  gauges : StdMap V := []
  counters : StdMap V := []
deriving DecidableEq, Repr

/-- Both maps of a snapshot satisfy the `std::map` invariant. -/
def Metrics.WF {V : Type} (m : Metrics V) : Prop := m.gauges.WF ∧ m.counters.WF

instance Metrics.WF_decidable {V : Type} (m : Metrics V) : Decidable m.WF :=
  inferInstanceAs (Decidable (m.gauges.WF ∧ m.counters.WF))

/-! ## The collection phase of `Agent::collect_loop` (agent.cpp lines 78-88) -/

/-- One registered collector as seen by one cycle: its `name()` and what its `collect()`
does in this cycle, returning a `Metrics` or throwing a `std::exception` whose `what()`
is the error string (the collectors of the repository throw `std::runtime_error`). -/
structure CollectorRun (V : Type) where
  name : String
  collect : Except String (Metrics V)

/-- The body of the `for` loop over `collectors_`: the `try` block merges the returned
maps into `all_metrics` with `insert`; the `catch` clause writes one line to `std::cerr`
and leaves `all_metrics` as it is. The state is `all_metrics` and the lines written. -/
def collect_step {V : Type} (st : Metrics V × List String) (c : CollectorRun V) :
    Metrics V × List String :=
  match c.collect with
  | .ok metrics =>
    ({ gauges := st.1.gauges.insert_range metrics.gauges,
       counters := st.1.counters.insert_range metrics.counters }, st.2)
  | .error what =>
    (st.1, st.2 ++ ["Collector " ++ c.name ++ " failed: " ++ what ++ "\n"])

/-- Lines 79-88: `Metrics all_metrics;` followed by the loop over `collectors_` in
registration order. Returns the accumulator and the lines written to `std::cerr`. -/
def collect_all {V : Type} (collectors : List (CollectorRun V)) : Metrics V × List String :=
  collectors.foldl collect_step ({}, [])

/-! ## Observable actions -/

/-- Actions a member function performs besides updating the object: console output,
starting and joining a `std::thread`, sleeping, and I/O on a socket. -/
inductive Effect where
  | cout (s : String)
  | cerr (s : String)
  | thread_start (fn : String)
  | thread_join (fn : String)
  | sleep_for (ms : Int)
  | read (fd : Int)
  | write (fd : Int) (data : String)
  | close (fd : Int)
deriving DecidableEq, Repr

/-- State of a `std::thread` member: `joinable() == false` for a default-constructed or
joined handle, `true` once a thread has been assigned to it. A handle is assigned only
in a `start()` that read `running_` as `false`, and joined in the `stop()` that clears
the flag, so it is joinable exactly while the flag is set (`Consistent` below). -/
structure StdThread where
  joinable : Bool := false
deriving DecidableEq, Repr

/-! ## `class PrometheusExporter` (prometheus.hpp, prometheus.cpp) -/

/-- Data members of `PrometheusExporter`. `current_metrics_` is the latest-snapshot cell;
`metrics_mutex_` is modelled in the interleaving semantics further down. -/
structure PrometheusExporter (V : Type) where
  port_ : Int
  running_ : Bool := false
  server_thread_ : StdThread := {}
  current_metrics_ : Metrics V := {}
deriving DecidableEq, Repr

namespace PrometheusExporter

variable {V : Type}

/-- Model of `PrometheusExporter::start` (lines 18-25). `running_.exchange(true)` stores
`true` and yields the previous value; when that is `true` the function returns at once. -/
def start (e : PrometheusExporter V) : PrometheusExporter V × List Effect :=
  let was_running := e.running_
  let e := { e with running_ := true }
  if was_running then (e, [])
  else
    ({ e with server_thread_ := { joinable := true } },
     [.cout ("Starting Prometheus exporter on :" ++ toString e.port_ ++ "/metrics\n"),
      .thread_start "PrometheusExporter::serve"])

/-- Model of `PrometheusExporter::stop` (lines 27-35). -/
def stop (e : PrometheusExporter V) : PrometheusExporter V × List Effect :=
  let was_running := e.running_
  let e := { e with running_ := false }
  if !was_running then (e, [])
  else if e.server_thread_.joinable then
    ({ e with server_thread_ := { joinable := false } },
     [.thread_join "PrometheusExporter::serve"])
  else (e, [])

/-- Model of `PrometheusExporter::export_metrics` (lines 37-40): the cell is replaced
wholesale by a copy of the argument. -/
def export_metrics (e : PrometheusExporter V) (metrics : Metrics V) : PrometheusExporter V :=
  { e with current_metrics_ := metrics }

/-- The body of the first loop of `format_metrics` (lines 48-49): two lines are appended
to the stream `oss` for the entry `[name, value]`. -/
def append_gauge (fmt : V → String) (oss : String) (nv : String × V) : String :=
  oss ++ "# TYPE " ++ nv.1 ++ " gauge\n" ++ nv.1 ++ " " ++ fmt nv.2 ++ "\n"

/-- The body of the second loop of `format_metrics` (lines 54-55). -/
def append_counter (fmt : V → String) (oss : String) (nv : String × V) : String :=
  oss ++ "# TYPE " ++ nv.1 ++ " counter\n" ++ nv.1 ++ " " ++ fmt nv.2 ++ "\n"

/-- The first loop of `format_metrics` (lines 46-50), over the gauges in map order. -/
def format_gauges (fmt : V → String) (gauges : StdMap V) (oss : String) : String :=
  gauges.foldl (append_gauge fmt) oss

/-- The second loop of `format_metrics` (lines 52-56), over the counters in map order. -/
def format_counters (fmt : V → String) (counters : StdMap V) (oss : String) : String :=
  counters.foldl (append_counter fmt) oss

/-- Model of `PrometheusExporter::format_metrics` (lines 42-59): all gauges of the cell
in map order, then all counters in map order. -/
def format_metrics (fmt : V → String) (e : PrometheusExporter V) : String :=
  let oss := ""
  let oss := format_gauges fmt e.current_metrics_.gauges oss
  let oss := format_counters fmt e.current_metrics_.counters oss
  oss

/-- Results of the three system calls `serve` makes before its accept loop. -/
structure ServeSetup where
  socket_ret : Int
  bind_ret : Int
  listen_ret : Int
deriving DecidableEq, Repr

/-- Where the server thread is after the set-up part of `serve`. -/
inductive ServeStatus where
  | returned
  | accepting (server_fd : Int)
deriving DecidableEq, Repr

/-- Model of `PrometheusExporter::serve` up to its accept loop (lines 61-86): each failed
call writes a line to `std::cerr` and returns from `serve` (the result of `setsockopt`
is not looked at). No branch assigns `running_`; the object is returned as it was
passed in. -/
def serve (e : PrometheusExporter V) (os : ServeSetup) :
    PrometheusExporter V × ServeStatus × List Effect :=
  let server_fd := os.socket_ret
  if server_fd < 0 then (e, .returned, [.cerr "Failed to create socket\n"])
  else if os.bind_ret < 0 then
    (e, .returned,
     [.cerr ("Failed to bind to port " ++ toString e.port_ ++ "\n"), .close server_fd])
  else if os.listen_ret < 0 then
    (e, .returned, [.cerr "Listen failed\n", .close server_fd])
  else (e, .accepting server_fd, [])

/-- The response assembled for one accepted connection (lines 105-112). -/
def build_response (fmt : V → String) (e : PrometheusExporter V) : String :=
  let metrics := format_metrics fmt e
  let response := ""
  let response := response ++ "HTTP/1.1 200 OK\r\n"
  let response := response ++ "Content-Type: text/plain\r\n"
  let response := response ++ "Content-Length: " ++ toString metrics.utf8ByteSize ++ "\r\n"
  let response := response ++ "\r\n"
  let response := response ++ metrics
  response

/-- One iteration of the accept loop of `serve` (lines 88-118), entered with `running_`
read as `true`: `client_fd` is the result of `accept`, `still_running` the value of
`running_` read after a failed `accept`. The request bytes are read and ignored. -/
def serve_connection (fmt : V → String) (e : PrometheusExporter V) (client_fd : Int)
    (still_running : Bool) : List Effect :=
  if client_fd < 0 then
    if still_running then [.cerr "Accept failed\n"] else []
  else
    let resp_str := build_response fmt e
    [.read client_fd, .write client_fd resp_str, .close client_fd]

end PrometheusExporter

/-! ## `class LoggingExporter` (logging.hpp, logging.cpp) -/

/-- Data members of `LoggingExporter`. -/
structure LoggingExporter where
  level_ : String := "info"
deriving DecidableEq, Repr

namespace LoggingExporter

/-- Model of `LoggingExporter::start`. -/
def start (e : LoggingExporter) : LoggingExporter × List Effect :=
  (e, [.cout ("Logging exporter started (level: " ++ e.level_ ++ ")\n")])

/-- Model of `LoggingExporter::stop`. -/
def stop (e : LoggingExporter) : LoggingExporter × List Effect :=
  (e, [.cout "Logging exporter stopped\n"])

/-- The two loops of `LoggingExporter::export_metrics`: the entries of one map as the
members of a JSON object, separated by commas. -/
def json_members {V : Type} (fmt : V → String) (m : StdMap V) : String :=
  (m.foldl
    (fun (st : String × Bool) nv =>
      ((if !st.2 then st.1 ++ "," else st.1) ++ "\"" ++ nv.1 ++ "\":" ++ fmt nv.2, false))
    ("", true)).1

/-- Model of `LoggingExporter::export_metrics`: at level `debug` one JSON line goes to
`std::cout`, otherwise nothing happens. `ts` is the formatted current UTC time. -/
def export_metrics {V : Type} (fmt : V → String) (ts : String) (e : LoggingExporter)
    (metrics : Metrics V) : LoggingExporter × List Effect :=
  if e.level_ = "debug" then
    (e, [.cout ("\x7b" ++ "\"ts\":\"" ++ ts ++ "\"," ++ "\"gauges\":\x7b" ++
      json_members fmt metrics.gauges ++ "\x7d,\"counters\":\x7b" ++
      json_members fmt metrics.counters ++ "\x7d\x7d\n")])
  else (e, [])

end LoggingExporter

/-! ## `class Exporter` (exporter.hpp) -/

/-- The abstract interface `Exporter` as a table of its three virtual members over the
objects `σ` that implement it. `start` and `stop` are taken to return normally;
`export_metrics` returns the updated object, or throws, in which case the string is the
`what()` of the exception. -/
structure ExporterClass (σ V : Type) where
  start : σ → σ × List Effect
  stop : σ → σ × List Effect
  export_metrics : σ → Metrics V → Except String (σ × List Effect)

/-- The objects held in `exporters_`: instances of the two subclasses of the repository. -/
inductive Exporter (V : Type) where
  | prometheus (e : PrometheusExporter V)
  | logging (e : LoggingExporter)
deriving DecidableEq, Repr

/-- Virtual dispatch to the two subclasses of the repository. Neither `export_metrics`
contains a `throw`. -/
def Exporter.vtable {V : Type} (fmt : V → String) (ts : String) :
    ExporterClass (Exporter V) V where
  start
    | .prometheus e => let r := e.start; (.prometheus r.1, r.2)
    | .logging e => let r := e.start; (.logging r.1, r.2)
  stop
    | .prometheus e => let r := e.stop; (.prometheus r.1, r.2)
    | .logging e => let r := e.stop; (.logging r.1, r.2)
  export_metrics
    | .prometheus e, metrics => .ok (.prometheus (e.export_metrics metrics), [])
    | .logging e, metrics => let r := e.export_metrics fmt ts metrics; .ok (.logging r.1, r.2)

/-- An implementation of the interface whose `export_metrics` always throws
`std::runtime_error(what)`; `start` and `stop` do nothing. It stands for any exporter
whose export fails. -/
structure ThrowingExporter where
  what : String
deriving DecidableEq, Repr

/-- Dispatch over the exporters of the repository together with `ThrowingExporter`. -/
def Exporter.vtable_with_throwing {V : Type} (fmt : V → String) (ts : String) :
    ExporterClass (Exporter V ⊕ ThrowingExporter) V where
  start
    | .inl e => let r := (Exporter.vtable fmt ts).start e; (.inl r.1, r.2)
    | .inr t => (.inr t, [])
  stop
    | .inl e => let r := (Exporter.vtable fmt ts).stop e; (.inl r.1, r.2)
    | .inr t => (.inr t, [])
  export_metrics
    | .inl e, metrics =>
      match (Exporter.vtable fmt ts).export_metrics e metrics with
      | .ok r => .ok (.inl r.1, r.2)
      | .error what => .error what
    | .inr t, _ => .error t.what

/-! ## `class Agent` (agent.hpp, agent.cpp) -/

/-- Model of `struct Config`. -/
structure Config where
  scrape_interval_ms : Int := 1000
  prometheus_port : Int := 9102
  log_level : String := "info"
deriving DecidableEq, Repr

/-- Data members of `Agent` that `start`, `stop` and `collect_loop` use. The collectors
enter through the `CollectorRun` list of each cycle. -/
structure Agent (σ : Type) where
  config_ : Config
  running_ : Bool := false
  collect_thread_ : StdThread := {}
  exporters_ : List σ
deriving DecidableEq, Repr

/-- Model of the constructor `Agent::Agent`: the exporters registered are a
`PrometheusExporter` on the configured port and a `LoggingExporter` at the configured
level, in this order. -/
def Agent.new {V : Type} (config : Config) : Agent (Exporter V) :=
  { config_ := config,
    exporters_ := [.prometheus { port_ := config.prometheus_port },
                   .logging { level_ := config.log_level }] }

/-- A range-based `for` over `exporters_` calling one of the non-throwing members:
returns the updated objects and the actions performed, in order. -/
def for_each_exporter {σ : Type} (f : σ → σ × List Effect) :
    List σ → List σ × List Effect
  | [] => ([], [])
  | e :: rest =>
    let r := f e
    let rs := for_each_exporter f rest
    (r.1 :: rs.1, r.2 ++ rs.2)

/-- Model of `Agent::start` (lines 30-47). -/
def Agent.start {σ V : Type} (X : ExporterClass σ V) (a : Agent σ) :
    Bool × Agent σ × List Effect :=
  let was_running := a.running_
  let a := { a with running_ := true }
  if was_running then
    (false, a, [.cerr "Agent already running\n"])
  else
    let out := [Effect.cout ("Starting InfraMind agent on port " ++
      toString a.config_.prometheus_port ++ "\n")]
    let rs := for_each_exporter X.start a.exporters_
    let a := { a with exporters_ := rs.1 }
    let a := { a with collect_thread_ := { joinable := true } }
    (true, a, out ++ rs.2 ++ [.thread_start "Agent::collect_loop"])

/-- Model of `Agent::stop` (lines 49-64). -/
def Agent.stop {σ V : Type} (X : ExporterClass σ V) (a : Agent σ) : Agent σ × List Effect :=
  let was_running := a.running_
  let a := { a with running_ := false }
  if !was_running then (a, [])
  else
    let out := [Effect.cout "Stopping InfraMind agent\n"]
    let joined := a.collect_thread_.joinable
    let a := if joined then { a with collect_thread_ := { joinable := false } } else a
    let out := if joined then out ++ [.thread_join "Agent::collect_loop"] else out
    let rs := for_each_exporter X.stop a.exporters_
    ({ a with exporters_ := rs.1 }, out ++ rs.2)

/-- Result of the export loop: the exporter objects, the actions performed, and the
exception, if any, that left the loop. -/
structure ExportResult (σ : Type) where
  exporters : List σ
  effects : List Effect
  thrown : Option String

/-- The loop over `exporters_` in `collect_loop` (lines 91-93). The call is not inside a
`try` block: an exception thrown by `export_metrics` leaves the loop at once, and the
exporters after the throwing one are not called. -/
def export_all {σ V : Type} (X : ExporterClass σ V) (all_metrics : Metrics V) :
    List σ → ExportResult σ
  | [] => { exporters := [], effects := [], thrown := none }
  | e :: rest =>
    match X.export_metrics e all_metrics with
    | .error what => { exporters := e :: rest, effects := [], thrown := some what }
    | .ok r =>
      let rs := export_all X all_metrics rest
      { exporters := r.1 :: rs.exporters, effects := r.2 ++ rs.effects, thrown := rs.thrown }

/-- What one iteration of the `while` loop of `collect_loop` meets: the value of
`running_` read by the loop condition, what each collector does, and the time the
collect and export steps take. -/
structure Cycle (V : Type) where
  running_ : Bool
  collectors : List (CollectorRun V)
  elapsed_ms : Int

/-- The body of the `while` loop of `collect_loop` (lines 76-100): collect, export, then
sleep for what is left of the interval. When an exception leaves the export loop the
rest of the body is not executed. -/
def collect_cycle {σ V : Type} (X : ExporterClass σ V) (config_ : Config)
    (exporters_ : List σ) (c : Cycle V) : ExportResult σ :=
  let collected := collect_all c.collectors
  let all_metrics := collected.1
  let errs := collected.2.map Effect.cerr
  let r := export_all X all_metrics exporters_
  match r.thrown with
  | some what => { exporters := r.exporters, effects := errs ++ r.effects, thrown := some what }
  | none =>
    let sleep_time := config_.scrape_interval_ms - c.elapsed_ms
    let slept := if sleep_time > 0 then [Effect.sleep_for sleep_time] else []
    { exporters := r.exporters, effects := errs ++ r.effects ++ slept, thrown := none }

/-- How a run of `collect_loop` over a finite list of iterations ends. -/
inductive LoopExit where
  | returned
  | terminated (what : String)
  | looping
deriving DecidableEq, Repr

/-- Model of `Agent::collect_loop` (lines 72-102) over the iterations given: the loop
returns when it reads `running_` as `false`; an exception that leaves the body leaves
the thread function (`terminated`); when the list is used up the thread is still in the
loop (`looping`). -/
def collect_loop {σ V : Type} (X : ExporterClass σ V) (config_ : Config) :
    List (Cycle V) → List σ → List σ × List Effect × LoopExit
  | [], exporters_ => (exporters_, [], .looping)
  | c :: cs, exporters_ =>
    if !c.running_ then (exporters_, [], .returned)
    else
      let r := collect_cycle X config_ exporters_ c
      match r.thrown with
      | some what => (r.exporters, r.effects, .terminated what)
      | none =>
        let rest := collect_loop X config_ cs r.exporters
        (rest.1, r.effects ++ rest.2.1, rest.2.2)

/-! ## Interleavings of `export_metrics` and `format_metrics`

The collection thread calls `export_metrics`, the server thread calls `format_metrics`;
both begin by constructing a `std::lock_guard` on `metrics_mutex_`. The semantics below
runs the threads one atomic step at a time in the order a schedule gives. The copy
assignment `current_metrics_ = metrics` is the member-wise assignment of `struct
Metrics`, one step for each of the two maps; in `format_metrics` every loop iteration is
a step, the iterator being the position in the map. A thread that finds the mutex taken
does not move. -/

namespace Interleaving

/-- Thread identifiers: the thread that exports, and the threads that render. -/
inductive Tid where
  | writer
  | reader (i : Nat)
deriving DecidableEq, Repr

/-- Position of the writer thread inside `export_metrics(metrics)`. -/
inductive WriterPc (V : Type) where
  | idle
  | locked (metrics : Metrics V)
  | gauges_copied (metrics : Metrics V)
  | counters_copied (metrics : Metrics V)

/-- Position of a reader thread inside `format_metrics()`: outside a call, or in one of
the two loops with the contents of `oss` and the position of the iterator. -/
inductive ReaderPc where
  | idle
  | in_gauges (oss : String) (pos : Nat)
  | in_counters (oss : String) (pos : Nat)
deriving DecidableEq, Repr

/-- Shared exporter object, mutex owner, thread positions, the arguments of the
`export_metrics` calls the writer has still to make, and the documents returned so far. -/
structure State (V : Type) where
  exporter : PrometheusExporter V
  metrics_mutex_ : Option Tid := none
  writer : WriterPc V := .idle
  pending : List (Metrics V)
  readers : Nat → ReaderPc := fun _ => .idle
  documents : List String := []

/-- One atomic step of thread `t`. -/
def step {V : Type} (fmt : V → String) (s : State V) : Tid → State V
  | .writer =>
    match s.writer with
    | .idle =>
      match s.pending with
      | [] => s
      | metrics :: rest =>
        if s.metrics_mutex_ = none then
          { s with metrics_mutex_ := some .writer, writer := .locked metrics, pending := rest }
        else s
    | .locked metrics =>
      { s with
        exporter := { s.exporter with
          current_metrics_ := { s.exporter.current_metrics_ with gauges := metrics.gauges } },
        writer := .gauges_copied metrics }
    | .gauges_copied metrics =>
      { s with
        exporter := { s.exporter with
          current_metrics_ := { s.exporter.current_metrics_ with counters := metrics.counters } },
        writer := .counters_copied metrics }
    | .counters_copied _ =>
      { s with metrics_mutex_ := none, writer := .idle }
  | .reader i =>
    match s.readers i with
    | .idle =>
      if s.metrics_mutex_ = none then
        { s with metrics_mutex_ := some (.reader i),
                 readers := Function.update s.readers i (.in_gauges "" 0) }
      else s
    | .in_gauges oss pos =>
      match s.exporter.current_metrics_.gauges[pos]? with
      | some nv =>
        let oss := PrometheusExporter.append_gauge fmt oss nv
        { s with readers := Function.update s.readers i (.in_gauges oss (pos + 1)) }
      | none =>
        { s with readers := Function.update s.readers i (.in_counters oss 0) }
    | .in_counters oss pos =>
      match s.exporter.current_metrics_.counters[pos]? with
      | some nv =>
        let oss := PrometheusExporter.append_counter fmt oss nv
        { s with readers := Function.update s.readers i (.in_counters oss (pos + 1)) }
      | none =>
        { s with metrics_mutex_ := none,
                 readers := Function.update s.readers i .idle,
                 documents := s.documents ++ [oss] }

/-- The state in which no call is in progress: `exporter` is the shared object and
`exports` are the snapshots the writer will pass to `export_metrics`, in order. -/
def init {V : Type} (exporter : PrometheusExporter V) (exports : List (Metrics V)) : State V :=
  { exporter := exporter, pending := exports }

/-- Runs the threads in the order given by the schedule. -/
def run {V : Type} (fmt : V → String) (s : State V) (schedule : List Tid) : State V :=
  schedule.foldl (step fmt) s

end Interleaving

/-! ## Auxiliary notions used to state the properties -/

/-- The server thread handle of the exporter is joinable exactly while `running_` is set. -/
def PrometheusExporter.Consistent {V : Type} (e : PrometheusExporter V) : Prop :=
  e.server_thread_.joinable = e.running_

/-- The collection thread handle of the Agent is joinable exactly while `running_` is set. -/
def Agent.Consistent {σ : Type} (a : Agent σ) : Prop :=
  a.collect_thread_.joinable = a.running_

/-- Snapshots returned by the collectors that did not throw, in registration order. -/
def returned_snapshots {V : Type} (runs : List (CollectorRun V)) : List (Metrics V) :=
  runs.filterMap (fun r => r.collect.toOption)

/-- The two-line block of the text exposition format for one metric:
`# TYPE <name> <kind>` followed by `<name> <value>`, each ended by a newline. -/
def metric_block {V : Type} (fmt : V → String) (kind : String) (nv : String × V) : String :=
  "# TYPE " ++ nv.1 ++ " " ++ kind ++ "\n" ++ nv.1 ++ " " ++ fmt nv.2 ++ "\n"

/-- The document `format_metrics` produces from a cell that holds snapshot `m`. -/
def render {V : Type} (fmt : V → String) (m : Metrics V) : String :=
  PrometheusExporter.format_counters fmt m.counters
    (PrometheusExporter.format_gauges fmt m.gauges "")

namespace Interleaving

/-- A complete snapshot of a run: the one the cell held at the start, or one of the
arguments of `export_metrics`. -/
def Complete {V : Type} (e0 : PrometheusExporter V) (exports : List (Metrics V))
    (m : Metrics V) : Prop :=
  m = e0.current_metrics_ ∨ m ∈ exports

/-- What holds of the cell and the mutex at each position of the writer. -/
def WriterOk {V : Type} (e0 : PrometheusExporter V) (exports : List (Metrics V))
    (cell : Metrics V) (mutex : Option Tid) : WriterPc V → Prop
  | .idle => Complete e0 exports cell ∧ mutex ≠ some .writer
  | .locked m => m ∈ exports ∧ Complete e0 exports cell ∧ mutex = some .writer
  | .gauges_copied m => m ∈ exports ∧ cell.gauges = m.gauges ∧ mutex = some .writer
  | .counters_copied m => m ∈ exports ∧ cell = m ∧ mutex = some .writer

/-- What holds of the cell, the mutex and `oss` at each position of reader `i`. -/
def ReaderOk {V : Type} (fmt : V → String) (cell : Metrics V) (mutex : Option Tid) (i : Nat) :
    ReaderPc → Prop
  | .idle => mutex ≠ some (.reader i)
  | .in_gauges oss pos =>
    mutex = some (.reader i) ∧
    oss = PrometheusExporter.format_gauges fmt (cell.gauges.take pos) ""
  | .in_counters oss pos =>
    mutex = some (.reader i) ∧
    oss = PrometheusExporter.format_counters fmt (cell.counters.take pos)
      (PrometheusExporter.format_gauges fmt cell.gauges "")

/-- Invariant of the interleaving semantics. -/
structure Inv {V : Type} (fmt : V → String) (e0 : PrometheusExporter V)
    (exports : List (Metrics V)) (s : State V) : Prop where
  pending : ∀ m ∈ s.pending, m ∈ exports
  writer : WriterOk e0 exports s.exporter.current_metrics_ s.metrics_mutex_ s.writer
  readers : ∀ i, ReaderOk fmt s.exporter.current_metrics_ s.metrics_mutex_ i (s.readers i)
  documents : ∀ d ∈ s.documents, ∃ m, Complete e0 exports m ∧ d = render fmt m

end Interleaving

end im

/-! # Properties -/

set_option maxRecDepth 8192

namespace im

/-! ## Facts about the map model -/

namespace StdMap

variable {V : Type}

theorem key_lt_iff (a b : String) : key_lt a b ↔ a < b :=
  String.lt_iff_toList_lt.symm

theorem key_lt_irrefl (a : String) : ¬ key_lt a a := by
  rw [key_lt_iff]; exact lt_irrefl a

theorem key_lt_trans {a b c : String} (h₁ : key_lt a b) (h₂ : key_lt b c) : key_lt a c := by
  rw [key_lt_iff] at *; exact lt_trans h₁ h₂

theorem key_eq_of_not_lt {a b : String} (h₁ : ¬ key_lt a b) (h₂ : ¬ key_lt b a) : a = b := by
  rw [key_lt_iff] at *; exact le_antisymm (not_lt.mp h₂) (not_lt.mp h₁)

theorem key_ne_of_lt {a b : String} (h : key_lt a b) : a ≠ b := by
  intro e; subst e; exact key_lt_irrefl a h

@[simp] theorem find_nil (k : String) : find ([] : StdMap V) k = none := rfl

theorem find_cons (k k' : String) (v' : V) (rest : StdMap V) :
    find ((k', v') :: rest) k = if k = k' then some v' else find rest k := by
  unfold find
  rw [List.lookup_cons]
  by_cases h : k = k'
  · subst h; simp
  · have : (k == k') = false := by simpa using h
    simp [this, h]

theorem find_eq_none_iff (m : StdMap V) (k : String) : find m k = none ↔ k ∉ m.keys := by
  induction m with
  | nil => simp [keys]
  | cons kv rest ih =>
    obtain ⟨k', v'⟩ := kv
    rw [find_cons]
    by_cases h : k = k'
    · subst h; simp [keys]
    · simp only [h, if_false, ih]
      simp [keys, h]

theorem mem_keys_iff_find (m : StdMap V) (k : String) :
    k ∈ m.keys ↔ ∃ v, find m k = some v := by
  have h := find_eq_none_iff m k
  cases hf : find m k with
  | none => rw [hf] at h; simp at h; simp [h]
  | some v => rw [hf] at h; simp at h; simp [h]
  

theorem keys_insert (m : StdMap V) (k : String) (v : V) (k' : String) :
    k' ∈ (m.insert k v).keys ↔ k' = k ∨ k' ∈ m.keys := by
  induction m with
  | nil => simp [insert, keys]
  | cons kv rest ih =>
    obtain ⟨k0, v0⟩ := kv
    unfold insert
    by_cases h1 : key_lt k k0
    · simp [h1, keys]
    · by_cases h2 : key_lt k0 k
      · simp only [h1, h2, if_false, if_true]
        have : k' ∈ keys ((k0, v0) :: StdMap.insert rest k v) ↔
            k' = k0 ∨ k' ∈ keys (StdMap.insert rest k v) := by
          simp [keys]
        rw [this, ih]
        simp [keys]
        tauto
      · have e := key_eq_of_not_lt h1 h2
        subst e
        simp [h1, keys]

theorem wf_cons (k : String) (v : V) (m : StdMap V) :
    WF ((k, v) :: m) ↔ (∀ k' ∈ m.keys, key_lt k k') ∧ WF m := by
  simp [WF, keys]

theorem wf_insert (m : StdMap V) (k : String) (v : V) (h : m.WF) : (m.insert k v).WF := by
  induction m with
  | nil => simp [insert, WF, keys]
  | cons kv rest ih =>
    obtain ⟨k0, v0⟩ := kv
    rw [wf_cons] at h
    unfold insert
    by_cases h1 : key_lt k k0
    · simp only [h1, if_true]
      rw [wf_cons]
      refine ⟨?_, (wf_cons _ _ _).2 h⟩
      intro k' hk'
      have : k' = k0 ∨ k' ∈ keys rest := by simpa [keys] using hk'
      rcases this with e | hr
      · subst e; exact h1
      · exact key_lt_trans h1 (h.1 k' hr)
    · by_cases h2 : key_lt k0 k
      · simp only [h1, h2, if_false, if_true]
        rw [wf_cons]
        refine ⟨?_, ih h.2⟩
        intro k' hk'
        rw [keys_insert] at hk'
        rcases hk' with e | hr
        · subst e; exact h2
        · exact h.1 k' hr
      · simp only [h1, h2, if_false]
        exact (wf_cons _ _ _).2 h

theorem find_insert (m : StdMap V) (k : String) (v : V) (h : m.WF) (k' : String) :
    find (m.insert k v) k' = if k' = k then (find m k <|> some v) else find m k' := by
  induction m with
  | nil =>
    simp only [insert, find_cons, find_nil]
    by_cases e : k' = k <;> simp [e]
  | cons kv rest ih =>
    obtain ⟨k0, v0⟩ := kv
    rw [wf_cons] at h
    unfold insert
    by_cases h1 : key_lt k k0
    · simp only [h1, if_true]
      rw [find_cons]
      by_cases e : k' = k
      · subst e
        have hn : find ((k0, v0) :: rest) k' = none := by
          rw [find_eq_none_iff]
          intro hk
          have : k' = k0 ∨ k' ∈ keys rest := by simpa [keys] using hk
          rcases this with e | hr
          · subst e; exact key_lt_irrefl _ h1
          · exact key_lt_irrefl _ (key_lt_trans h1 (h.1 k' hr))
        simp [hn]
      · simp [e]
    · by_cases h2 : key_lt k0 k
      · simp only [h1, h2, if_false, if_true]
        rw [find_cons, ih h.2, find_cons, find_cons]
        have hne : k ≠ k0 := (key_ne_of_lt h2).symm
        by_cases e0 : k' = k0
        · subst e0
          simp [Ne.symm hne]
        · simp [e0, hne]
      · have e := key_eq_of_not_lt h1 h2
        subst e
        simp only [h1, if_false]
        rw [find_cons, find_cons]
        by_cases e : k' = k <;> simp [e]

theorem wf_insert_range (m src : StdMap V) (h : m.WF) : (m.insert_range src).WF := by
  induction src generalizing m with
  | nil => simpa [insert_range] using h
  | cons kv rest ih =>
    simp only [insert_range, List.foldl_cons]
    exact ih _ (wf_insert m kv.1 kv.2 h)

theorem find_insert_range (m src : StdMap V) (h : m.WF) (k : String) :
    find (m.insert_range src) k = (find m k <|> find src k) := by
  induction src generalizing m with
  | nil => simp [insert_range]
  | cons kv rest ih =>
    obtain ⟨k1, v1⟩ := kv
    have := ih (m.insert k1 v1) (wf_insert m k1 v1 h)
    simp only [insert_range, List.foldl_cons] at this ⊢
    rw [this, find_insert m k1 v1 h, find_cons]
    by_cases e : k = k1
    · subst e
      cases find m k <;> simp
    · simp [e]

end StdMap

/-! ## The collection phase -/

section Collect
variable {V : Type}

theorem wf_empty : (({} : Metrics V)).WF := by
  simp [Metrics.WF, StdMap.WF, StdMap.keys]

theorem collect_step_wf (st : Metrics V × List String) (c : CollectorRun V) (h : st.1.WF) :
    (collect_step st c).1.WF := by
  unfold collect_step
  cases c.collect with
  | error w => exact h
  | ok m => exact ⟨StdMap.wf_insert_range _ _ h.1, StdMap.wf_insert_range _ _ h.2⟩

theorem collect_fold_wf (runs : List (CollectorRun V)) (st : Metrics V × List String)
    (h : st.1.WF) : (runs.foldl collect_step st).1.WF := by
  induction runs generalizing st with
  | nil => exact h
  | cons c rest ih => exact ih _ (collect_step_wf st c h)

theorem collect_all_wf (runs : List (CollectorRun V)) : (collect_all runs).1.WF :=
  collect_fold_wf runs _ wf_empty

theorem collect_fold_find_gauges (runs : List (CollectorRun V)) (st : Metrics V × List String)
    (h : st.1.WF) (k : String) :
    (runs.foldl collect_step st).1.gauges.find k =
      (st.1.gauges.find k <|> (returned_snapshots runs).findSome? (fun m => m.gauges.find k)) := by
  induction runs generalizing st with
  | nil => simp [returned_snapshots]
  | cons c rest ih =>
    rw [List.foldl_cons, ih _ (collect_step_wf st c h)]
    unfold collect_step returned_snapshots
    cases hc : c.collect with
    | error w => simp [List.filterMap_cons, hc, Except.toOption]
    | ok m =>
      simp only [List.filterMap_cons, hc, Except.toOption, List.findSome?_cons]
      rw [StdMap.find_insert_range _ _ h.1]
      cases st.1.gauges.find k <;> cases m.gauges.find k <;> simp

theorem collect_fold_find_counters (runs : List (CollectorRun V)) (st : Metrics V × List String)
    (h : st.1.WF) (k : String) :
    (runs.foldl collect_step st).1.counters.find k =
      (st.1.counters.find k <|>
        (returned_snapshots runs).findSome? (fun m => m.counters.find k)) := by
  induction runs generalizing st with
  | nil => simp [returned_snapshots]
  | cons c rest ih =>
    rw [List.foldl_cons, ih _ (collect_step_wf st c h)]
    unfold collect_step returned_snapshots
    cases hc : c.collect with
    | error w => simp [List.filterMap_cons, hc, Except.toOption]
    | ok m =>
      simp only [List.filterMap_cons, hc, Except.toOption, List.findSome?_cons]
      rw [StdMap.find_insert_range _ _ h.2]
      cases st.1.counters.find k <;> cases m.counters.find k <;> simp

theorem collect_all_find_gauges (runs : List (CollectorRun V)) (k : String) :
    (collect_all runs).1.gauges.find k =
      (returned_snapshots runs).findSome? (fun m => m.gauges.find k) := by
  unfold collect_all
  rw [collect_fold_find_gauges runs _ wf_empty]
  simp

theorem collect_all_find_counters (runs : List (CollectorRun V)) (k : String) :
    (collect_all runs).1.counters.find k =
      (returned_snapshots runs).findSome? (fun m => m.counters.find k) := by
  unfold collect_all
  rw [collect_fold_find_counters runs _ wf_empty]
  simp

theorem findSome_find_isSome (ms : List (Metrics V)) (sel : Metrics V → StdMap V) (k : String) :
    (∃ v, ms.findSome? (fun m => (sel m).find k) = some v) ↔ ∃ m ∈ ms, k ∈ (sel m).keys := by
  induction ms with
  | nil => simp
  | cons m rest ih =>
    rw [List.findSome?_cons]
    cases hf : (sel m).find k with
    | some v =>
      have : k ∈ (sel m).keys := (StdMap.mem_keys_iff_find _ _).2 ⟨v, hf⟩
      simp only [List.mem_cons, exists_eq_or_imp]
      constructor
      · intro _; exact Or.inl this
      · intro _; exact ⟨v, rfl⟩
    | none =>
      have : k ∉ (sel m).keys := (StdMap.find_eq_none_iff _ _).1 hf
      simp only [List.mem_cons, exists_eq_or_imp, this, false_or]
      exact ih

theorem collect_all_keys_gauges (runs : List (CollectorRun V)) (k : String) :
    k ∈ (collect_all runs).1.gauges.keys ↔ ∃ m ∈ returned_snapshots runs, k ∈ m.gauges.keys := by
  rw [StdMap.mem_keys_iff_find, collect_all_find_gauges]
  exact findSome_find_isSome _ (fun m => m.gauges) k

theorem collect_all_keys_counters (runs : List (CollectorRun V)) (k : String) :
    k ∈ (collect_all runs).1.counters.keys ↔
      ∃ m ∈ returned_snapshots runs, k ∈ m.counters.keys := by
  rw [StdMap.mem_keys_iff_find, collect_all_find_counters]
  exact findSome_find_isSome _ (fun m => m.counters) k


theorem collect_fold_log (runs : List (CollectorRun V)) (st : Metrics V × List String) :
    (runs.foldl collect_step st).2 = st.2 ++ runs.filterMap (fun r =>
      match r.collect with
      | .error what => some ("Collector " ++ r.name ++ " failed: " ++ what ++ "\n")
      | .ok _ => none) := by
  induction runs generalizing st with
  | nil => simp
  | cons c rest ih =>
    rw [List.foldl_cons, ih]
    unfold collect_step
    cases hc : c.collect with
    | error w => simp [List.filterMap_cons, hc]
    | ok m => simp [List.filterMap_cons, hc]

theorem collect_fold_filter (runs : List (CollectorRun V)) (st st' : Metrics V × List String)
    (h : st.1 = st'.1) :
    (runs.foldl collect_step st).1 =
      ((runs.filter (fun r => r.collect.toOption.isSome)).foldl collect_step st').1 := by
  induction runs generalizing st st' with
  | nil => simpa using h
  | cons c rest ih =>
    rw [List.foldl_cons]
    cases hc : c.collect with
    | error w =>
      have hf : (c.collect.toOption.isSome) = false := by simp [hc, Except.toOption]
      rw [List.filter_cons]
      simp only [hf, Bool.false_eq_true, if_false]
      apply ih
      simp [collect_step, hc, h]
    | ok m =>
      have hf : (c.collect.toOption.isSome) = true := by simp [hc, Except.toOption]
      rw [List.filter_cons]
      simp only [hf, if_true, List.foldl_cons]
      apply ih
      simp [collect_step, hc, h]

theorem export_all_of_ok {σ : Type} (X : ExporterClass σ V) (acc : Metrics V) (exps : List σ)
    (h : ∀ e ∈ exps, ∃ r, X.export_metrics e acc = .ok r) :
    (export_all X acc exps).thrown = none ∧
    (export_all X acc exps).exporters = exps.map (fun e =>
      match X.export_metrics e acc with
      | .ok r => r.1
      | .error _ => e) := by
  induction exps with
  | nil => simp [export_all]
  | cons e rest ih =>
    obtain ⟨r, hr⟩ := h e (List.mem_cons_self _ _)
    have ih' := ih (fun e' he' => h e' (List.mem_cons_of_mem _ he'))
    simp only [export_all, hr, List.map_cons]
    exact ⟨ih'.1, by rw [ih'.2]⟩

theorem collect_cycle_exporters {σ : Type} (X : ExporterClass σ V) (config_ : Config)
    (exps : List σ) (c : Cycle V) :
    (collect_cycle X config_ exps c).exporters =
        (export_all X (collect_all c.collectors).1 exps).exporters ∧
    (collect_cycle X config_ exps c).thrown =
        (export_all X (collect_all c.collectors).1 exps).thrown := by
  unfold collect_cycle
  cases h : (export_all X (collect_all c.collectors).1 exps).thrown <;> simp [h]

end Collect
/-! ## C1: merge of the collector outputs -/

/-- C1, amended: when every collector returns, the accumulator built by one pass of
`Agent::collect_loop` is a well-formed pair of maps whose gauge names are exactly the
gauge names emitted by some collector (likewise for counters), and for every name the
accumulator holds the value of the FIRST collector in registration order that emitted
it, because `std::map::insert` leaves an existing entry untouched. -/
theorem C1_merge_is_union_first_wins {V : Type} (outs : List (String × Metrics V)) :
    ((collect_all (outs.map (fun o => ⟨o.1, .ok o.2⟩))).1.WF) ∧
    (∀ k, k ∈ (collect_all (outs.map (fun o => ⟨o.1, .ok o.2⟩))).1.gauges.keys ↔
      ∃ o ∈ outs, k ∈ o.2.gauges.keys) ∧
    (∀ k, k ∈ (collect_all (outs.map (fun o => ⟨o.1, .ok o.2⟩))).1.counters.keys ↔
      ∃ o ∈ outs, k ∈ o.2.counters.keys) ∧
    (∀ k, (collect_all (outs.map (fun o => ⟨o.1, .ok o.2⟩))).1.gauges.find k =
      outs.findSome? (fun o => o.2.gauges.find k)) ∧
    (∀ k, (collect_all (outs.map (fun o => ⟨o.1, .ok o.2⟩))).1.counters.find k =
      outs.findSome? (fun o => o.2.counters.find k)) := by
  have hs : returned_snapshots (outs.map (fun o => (⟨o.1, .ok o.2⟩ : CollectorRun V))) =
      outs.map Prod.snd := by
    induction outs with
    | nil => rfl
    | cons o rest ih =>
      simp only [returned_snapshots, List.map_cons, List.filterMap_cons, Except.toOption] at ih ⊢
      rw [ih]
  refine ⟨collect_all_wf _, ?_, ?_, ?_, ?_⟩
  · intro k
    rw [collect_all_keys_gauges, hs]
    constructor
    · rintro ⟨m, hm, hk⟩
      obtain ⟨o, ho, rfl⟩ := List.mem_map.1 hm
      exact ⟨o, ho, hk⟩
    · rintro ⟨o, ho, hk⟩
      exact ⟨o.2, List.mem_map.2 ⟨o, ho, rfl⟩, hk⟩
  · intro k
    rw [collect_all_keys_counters, hs]
    constructor
    · rintro ⟨m, hm, hk⟩
      obtain ⟨o, ho, rfl⟩ := List.mem_map.1 hm
      exact ⟨o, ho, hk⟩
    · rintro ⟨o, ho, hk⟩
      exact ⟨o.2, List.mem_map.2 ⟨o, ho, rfl⟩, hk⟩
  · intro k
    rw [collect_all_find_gauges, hs, List.findSome?_map]
    rfl
  · intro k
    rw [collect_all_find_counters, hs, List.findSome?_map]
    rfl

/-- C1, as stated, fails: collectors `cpu` and `mem` both emit gauge `x`, with values 1
and 2. The claim puts the value of the last one, 2, in the accumulator; the pass keeps
the value of the first one, 1. -/
theorem C1_last_wins_counterexample :
    (collect_all [⟨"cpu", .ok { gauges := [("x", 1)] }⟩,
                  ⟨"mem", .ok { gauges := [("x", 2)] }⟩] :
        Metrics Nat × List String).1.gauges.find "x" = some 1 ∧
    (collect_all [⟨"cpu", .ok { gauges := [("x", 1)] }⟩,
                  ⟨"mem", .ok { gauges := [("x", 2)] }⟩] :
        Metrics Nat × List String).1.gauges.find "x" ≠
      ({ gauges := [("x", 2)] } : Metrics Nat).gauges.find "x" := by
  decide

/-! ## C2: layout of the rendered document -/

namespace PrometheusExporter

variable {V : Type}

theorem format_gauges_eq (fmt : V → String) (gauges : StdMap V) (oss : String) :
    format_gauges fmt gauges oss = oss ++ String.join (gauges.map (metric_block fmt "gauge")) := by
  induction gauges generalizing oss with
  | nil => apply String.ext; simp [format_gauges]
  | cons nv rest ih =>
    unfold format_gauges at ih ⊢
    rw [List.foldl_cons, ih]
    apply String.ext
    simp [metric_block, append_gauge, String.data_append, List.append_assoc]

theorem format_counters_eq (fmt : V → String) (counters : StdMap V) (oss : String) :
    format_counters fmt counters oss =
      oss ++ String.join (counters.map (metric_block fmt "counter")) := by
  induction counters generalizing oss with
  | nil => apply String.ext; simp [format_counters]
  | cons nv rest ih =>
    unfold format_counters at ih ⊢
    rw [List.foldl_cons, ih]
    apply String.ext
    simp [metric_block, append_counter, String.data_append, List.append_assoc]

theorem format_metrics_eq (fmt : V → String) (e : PrometheusExporter V) :
    format_metrics fmt e =
      String.join (e.current_metrics_.gauges.map (metric_block fmt "gauge") ++
        e.current_metrics_.counters.map (metric_block fmt "counter")) := by
  unfold format_metrics
  simp only []
  rw [format_gauges_eq, format_counters_eq]
  apply String.ext
  simp [String.data_append]

end PrometheusExporter

/-- C2, amended: for every snapshot in the cell, the document produced by
`PrometheusExporter::format_metrics` is a sequence of two-line blocks (`# TYPE <name>
<gauge|counter>` then `<name> <value>`), one per metric, grouped by kind: first one block
per gauge, in ascending order of gauge name, then one block per counter, in ascending
order of counter name. -/
theorem C2_blocks_grouped_by_kind {V : Type} (fmt : V → String) (e : PrometheusExporter V)
    (h : e.current_metrics_.WF) :
    e.format_metrics fmt =
      String.join (e.current_metrics_.gauges.map (metric_block fmt "gauge") ++
        e.current_metrics_.counters.map (metric_block fmt "counter")) ∧
    List.Pairwise key_lt (e.current_metrics_.gauges.map Prod.fst) ∧
    List.Pairwise key_lt (e.current_metrics_.counters.map Prod.fst) :=
  ⟨PrometheusExporter.format_metrics_eq fmt e, h.1, h.2⟩

/-- C2, amended, at the snapshot merged from a `cpu` and a `cache` collector (values that
`operator<<` prints as integers): the gauges `im_cache_hit_ratio`, `im_cpu_usage_percent`
come first, then the counters `im_cache_hits_total`, `im_cpu_user_seconds_total`. -/
theorem C2_blocks_grouped_by_kind_witness :
    (collect_all
        [⟨"cpu", .ok { gauges := [("im_cpu_usage_percent", 0)],
                       counters := [("im_cpu_user_seconds_total", 12)] }⟩,
         ⟨"cache", .ok { gauges := [("im_cache_hit_ratio", 1)],
                         counters := [("im_cache_hits_total", 100)] }⟩] :
        Metrics Nat × List String).1.WF ∧
    (PrometheusExporter.export_metrics { port_ := 9102 }
      (collect_all
        [⟨"cpu", .ok { gauges := [("im_cpu_usage_percent", 0)],
                       counters := [("im_cpu_user_seconds_total", 12)] }⟩,
         ⟨"cache", .ok { gauges := [("im_cache_hit_ratio", 1)],
                         counters := [("im_cache_hits_total", 100)] }⟩] :
        Metrics Nat × List String).1).format_metrics (fun n => toString n) =
      String.join
        [metric_block (fun n : Nat => toString n) "gauge" ("im_cache_hit_ratio", 1),
         metric_block (fun n : Nat => toString n) "gauge" ("im_cpu_usage_percent", 0),
         metric_block (fun n : Nat => toString n) "counter" ("im_cache_hits_total", 100),
         metric_block (fun n : Nat => toString n) "counter" ("im_cpu_user_seconds_total", 12)] :=
  ⟨by decide,
   (C2_blocks_grouped_by_kind (fun n : Nat => toString n)
      (PrometheusExporter.export_metrics { port_ := 9102 }
        (collect_all
          [⟨"cpu", .ok { gauges := [("im_cpu_usage_percent", 0)],
                         counters := [("im_cpu_user_seconds_total", 12)] }⟩,
           ⟨"cache", .ok { gauges := [("im_cache_hit_ratio", 1)],
                           counters := [("im_cache_hits_total", 100)] }⟩]).1)
      (by decide)).1.trans (by decide)⟩

/-- C2, as stated, fails: with gauge `b` and counter `a`, the counter sorts before the
gauge, yet the document renders the block of gauge `b` first; it is not the sequence
of blocks in ascending order of name. -/
theorem C2_interleaved_counterexample :
    key_lt "a" "b" ∧
    PrometheusExporter.format_metrics (fun n : Nat => toString n)
        { port_ := 9102, current_metrics_ := { gauges := [("b", 1)], counters := [("a", 2)] } } =
      "# TYPE b gauge\nb 1\n# TYPE a counter\na 2\n" ∧
    PrometheusExporter.format_metrics (fun n : Nat => toString n)
        { port_ := 9102, current_metrics_ := { gauges := [("b", 1)], counters := [("a", 2)] } } ≠
      String.join [metric_block (fun n : Nat => toString n) "counter" ("a", 2),
                   metric_block (fun n : Nat => toString n) "gauge" ("b", 1)] := by
  decide

/-! ## C8: the HTTP response -/

/-- C8: whatever the latest-snapshot cell holds, the response built for a connection is
the status line and headers `HTTP/1.1 200 OK`, `Content-Type: text/plain`,
`Content-Length: N`, an empty line, and then the rendered document, where `N` is the
byte length of that document; `serve` writes exactly this response to the client. For
an exporter on which no export has happened yet (just constructed, or constructed and
started) the cell is the empty snapshot, the document is empty and `N` is 0. -/
theorem C8_response_well_formed {V : Type} (fmt : V → String) (e : PrometheusExporter V)
    (port client_fd : Int) (still_running : Bool) :
    e.build_response fmt =
      "HTTP/1.1 200 OK\r\nContent-Type: text/plain\r\nContent-Length: " ++
        toString (e.format_metrics fmt).utf8ByteSize ++ "\r\n\r\n" ++ e.format_metrics fmt ∧
    (0 ≤ client_fd → e.serve_connection fmt client_fd still_running =
      [.read client_fd, .write client_fd (e.build_response fmt), .close client_fd]) ∧
    ({ port_ := port } : PrometheusExporter V).current_metrics_ = {} ∧
    ({ port_ := port } : PrometheusExporter V).start.1.current_metrics_ = {} ∧
    ({ port_ := port } : PrometheusExporter V).format_metrics fmt = "" ∧
    ({ port_ := port } : PrometheusExporter V).start.1.format_metrics fmt = "" ∧
    ({ port_ := port } : PrometheusExporter V).start.1.build_response fmt =
      "HTTP/1.1 200 OK\r\nContent-Type: text/plain\r\nContent-Length: 0\r\n\r\n" := by
  refine ⟨?_, ?_, rfl, rfl, rfl, rfl, ?_⟩
  · unfold PrometheusExporter.build_response
    apply String.ext
    simp [String.data_append, List.append_assoc]
  · intro h
    unfold PrometheusExporter.serve_connection
    simp [not_lt.mpr h]
  · have hdoc : ({ port_ := port } : PrometheusExporter V).start.1.format_metrics fmt = "" := rfl
    unfold PrometheusExporter.build_response
    rw [hdoc]
    decide

/-- C8 at an exporter whose cell holds one gauge `x` of value 1: the document has 19
bytes and the response announces 19. -/
theorem C8_response_well_formed_witness :
    PrometheusExporter.build_response (fun n : Nat => toString n)
        { port_ := 9102, current_metrics_ := { gauges := [("x", 1)] } } =
      "HTTP/1.1 200 OK\r\nContent-Type: text/plain\r\nContent-Length: 19\r\n\r\n# TYPE x gauge\nx 1\n" ∧
    PrometheusExporter.serve_connection (fun n : Nat => toString n)
        { port_ := 9102, current_metrics_ := { gauges := [("x", 1)] } } 7 true =
      [.read 7,
       .write 7 "HTTP/1.1 200 OK\r\nContent-Type: text/plain\r\nContent-Length: 19\r\n\r\n# TYPE x gauge\nx 1\n",
       .close 7] :=
  ⟨(C8_response_well_formed (fun n : Nat => toString n)
      { port_ := 9102, current_metrics_ := { gauges := [("x", 1)] } } 9102 7 true).1.trans
      (by decide),
   ((C8_response_well_formed (fun n : Nat => toString n)
      { port_ := 9102, current_metrics_ := { gauges := [("x", 1)] } } 9102 7 true).2.1
      (by decide)).trans (by decide)⟩

/-! ## C5: a failed set-up of the server thread -/

/-- C5, amended: when `start()` is called on a stopped exporter and socket creation,
bind or listen fails, `serve()` returns without touching the object: the running flag
stays `true`, and a further `start()` is skipped as already serving. The flag is cleared
by `stop()`, which joins the finished server thread; after that `start()` launches
`serve()` again. -/
theorem C5_failed_serve_keeps_running {V : Type} (e : PrometheusExporter V)
    (os : PrometheusExporter.ServeSetup)
    (hstopped : e.running_ = false)
    (hfail : os.socket_ret < 0 ∨ os.bind_ret < 0 ∨ os.listen_ret < 0) :
    (e.start.1.serve os).2.1 = .returned ∧
    (e.start.1.serve os).1 = e.start.1 ∧
    (e.start.1.serve os).1.running_ = true ∧
    (e.start.1.serve os).1.start = ((e.start.1.serve os).1, []) ∧
    (e.start.1.serve os).1.stop.1.running_ = false ∧
    (e.start.1.serve os).1.stop.2 = [.thread_join "PrometheusExporter::serve"] ∧
    (e.start.1.serve os).1.stop.1.start.2 =
      [.cout ("Starting Prometheus exporter on :" ++ toString e.port_ ++ "/metrics\n"),
       .thread_start "PrometheusExporter::serve"] := by
  have hs : (e.start.1.serve os).1 = e.start.1 := by
    unfold PrometheusExporter.serve
    simp only []
    split_ifs <;> rfl
  refine ⟨?_, hs, ?_, ?_, ?_, ?_, ?_⟩
  · unfold PrometheusExporter.serve
    simp only []
    rcases hfail with h | h | h
    · simp [h]
    · split_ifs <;> rfl
    · split_ifs <;> rfl
  · rw [hs]; simp [PrometheusExporter.start, hstopped]
  · rw [hs]; simp [PrometheusExporter.start, hstopped]
  · rw [hs]; simp [PrometheusExporter.start, PrometheusExporter.stop, hstopped]
  · rw [hs]; simp [PrometheusExporter.start, PrometheusExporter.stop, hstopped]
  · rw [hs]; simp [PrometheusExporter.start, PrometheusExporter.stop, hstopped]

/-- C5, amended, at a fresh exporter on port 9102 whose `bind` fails. -/
theorem C5_failed_serve_keeps_running_witness :
    (({ port_ := 9102 } : PrometheusExporter Nat).start.1.serve ⟨3, -1, 0⟩).2.1 = .returned ∧
    (({ port_ := 9102 } : PrometheusExporter Nat).start.1.serve ⟨3, -1, 0⟩).1.running_ = true ∧
    (({ port_ := 9102 } : PrometheusExporter Nat).start.1.serve ⟨3, -1, 0⟩).1.stop.1.running_ =
      false :=
  have h := C5_failed_serve_keeps_running ({ port_ := 9102 } : PrometheusExporter Nat)
    ⟨3, -1, 0⟩ (by decide) (by decide)
  ⟨h.1, h.2.2.1, h.2.2.2.2.1⟩

/-- C5, as stated, fails: port 9102 is taken, so `bind` returns -1 and `serve()` returns
after logging; the running flag of the exporter is still `true` (not `false`), and the
next `start()` does nothing. -/
theorem C5_stopped_after_bind_failure_counterexample :
    (({ port_ := 9102 } : PrometheusExporter Nat).start.1.serve ⟨3, -1, 0⟩).2 =
      (.returned, [.cerr "Failed to bind to port 9102\n", .close 3]) ∧
    (({ port_ := 9102 } : PrometheusExporter Nat).start.1.serve ⟨3, -1, 0⟩).1.running_ ≠ false ∧
    (({ port_ := 9102 } : PrometheusExporter Nat).start.1.serve ⟨3, -1, 0⟩).1.start.2 = [] := by
  decide

/-! ## Thread handles and running flags -/

theorem PrometheusExporter.exporter_consistent_new {V : Type} (port : Int) :
    ({ port_ := port } : PrometheusExporter V).Consistent := rfl

theorem PrometheusExporter.exporter_consistent_start {V : Type} (e : PrometheusExporter V)
    (h : e.Consistent) : e.start.1.Consistent := by
  unfold PrometheusExporter.Consistent at h ⊢
  unfold PrometheusExporter.start
  cases hr : e.running_ <;> simp [hr] at h ⊢
  exact h

theorem PrometheusExporter.exporter_consistent_stop {V : Type} (e : PrometheusExporter V)
    (h : e.Consistent) : e.stop.1.Consistent := by
  unfold PrometheusExporter.Consistent at h ⊢
  unfold PrometheusExporter.stop
  cases hr : e.running_ <;> simp [hr] at h ⊢
  · exact h
  · split_ifs
    simp_all

theorem Agent.agent_consistent_new {V : Type} (config : Config) :
    (Agent.new config : Agent (Exporter V)).Consistent := rfl

theorem Agent.agent_consistent_start {σ V : Type} (X : ExporterClass σ V) (a : Agent σ)
    (h : a.Consistent) : (Agent.start X a).2.1.Consistent := by
  unfold Agent.Consistent at h ⊢
  unfold Agent.start
  cases hr : a.running_ <;> simp [hr] at h ⊢
  exact h

theorem Agent.agent_consistent_stop {σ V : Type} (X : ExporterClass σ V) (a : Agent σ)
    (h : a.Consistent) : (Agent.stop X a).1.Consistent := by
  unfold Agent.Consistent at h ⊢
  unfold Agent.stop
  cases hr : a.running_ <;> simp [hr] at h ⊢
  · exact h
  · split_ifs
    simp_all

/-! ## C6, C7: `Agent::start` and `Agent::stop` -/

theorem for_each_exporter_eq {σ : Type} (f : σ → σ × List Effect) (exps : List σ) :
    for_each_exporter f exps =
      (exps.map (fun e => (f e).1), (exps.map (fun e => (f e).2)).flatten) := by
  induction exps with
  | nil => rfl
  | cons e rest ih => simp [for_each_exporter, ih]

/-- C6: on an Agent that is already running, `start()` returns `false` and leaves the
object as it is (the running flag stays `true`), starting no exporter and no thread;
its only action is the line `Agent already running` on `std::cerr`. On a stopped Agent,
`start()` returns `true`, sets the running flag, calls `start()` on every exporter in
registration order, and launches `collect_loop` on `collect_thread_` after the last of
them. -/
theorem C6_agent_start {σ V : Type} (X : ExporterClass σ V) (a : Agent σ) :
    (a.running_ = true →
      Agent.start X a = (false, a, [.cerr "Agent already running\n"])) ∧
    (a.running_ = false →
      Agent.start X a =
        (true,
         { a with running_ := true,
                  collect_thread_ := { joinable := true },
                  exporters_ := a.exporters_.map (fun e => (X.start e).1) },
         [.cout ("Starting InfraMind agent on port " ++
            toString a.config_.prometheus_port ++ "\n")] ++
          (a.exporters_.map (fun e => (X.start e).2)).flatten ++
          [.thread_start "Agent::collect_loop"])) := by
  constructor
  · intro h
    obtain ⟨c, r, t, es⟩ := a
    simp only at h
    subst h
    rfl
  · intro h
    obtain ⟨c, r, t, es⟩ := a
    simp only at h
    subst h
    simp [Agent.start, for_each_exporter_eq]

/-- C6 at the Agent the constructor builds from the default configuration: the first
`start()` starts the Prometheus exporter, then the logging exporter, then the
collection thread; a second `start()` returns `false` and changes nothing. -/
theorem C6_agent_start_witness :
    Agent.start (Exporter.vtable (fun n : Nat => toString n) "") (Agent.new {}) =
      (true,
       { config_ := {}, running_ := true, collect_thread_ := { joinable := true },
         exporters_ := [.prometheus { port_ := 9102, running_ := true,
                                       server_thread_ := { joinable := true } },
                        .logging { level_ := "info" }] },
       [.cout "Starting InfraMind agent on port 9102\n",
        .cout "Starting Prometheus exporter on :9102/metrics\n",
        .thread_start "PrometheusExporter::serve",
        .cout "Logging exporter started (level: info)\n",
        .thread_start "Agent::collect_loop"]) ∧
    Agent.start (Exporter.vtable (fun n : Nat => toString n) "")
        (Agent.start (Exporter.vtable (fun n : Nat => toString n) "") (Agent.new {})).2.1 =
      (false,
       (Agent.start (Exporter.vtable (fun n : Nat => toString n) "") (Agent.new {})).2.1,
       [.cerr "Agent already running\n"]) :=
  ⟨((C6_agent_start (Exporter.vtable (fun n : Nat => toString n) "") (Agent.new {})).2
      (by decide)).trans (by decide),
   (C6_agent_start (Exporter.vtable (fun n : Nat => toString n) "")
      (Agent.start (Exporter.vtable (fun n : Nat => toString n) "") (Agent.new {})).2.1).1
      (by decide)⟩

/-- C7: `Agent::stop()` is idempotent. On an Agent whose running flag is `false` it
returns with the object unchanged and without any action (no exporter is stopped, no
thread is joined); hence a second `stop()` in a row does nothing. On a running Agent it
joins the collection thread if joinable and then calls `stop()` on every exporter once,
in registration order. -/
theorem C7_agent_stop_idempotent {σ V : Type} (X : ExporterClass σ V) (a : Agent σ) :
    (a.running_ = false → Agent.stop X a = (a, [])) ∧
    Agent.stop X (Agent.stop X a).1 = ((Agent.stop X a).1, []) ∧
    (a.running_ = true →
      (Agent.stop X a).1 =
        { a with running_ := false,
                 collect_thread_ := { joinable := false },
                 exporters_ := a.exporters_.map (fun e => (X.stop e).1) } ∧
      (Agent.stop X a).2 =
        [.cout "Stopping InfraMind agent\n"] ++
          (if a.collect_thread_.joinable then [.thread_join "Agent::collect_loop"] else []) ++
          (a.exporters_.map (fun e => (X.stop e).2)).flatten) := by
  have h1 : ∀ b : Agent σ, b.running_ = false → Agent.stop X b = (b, []) := by
    intro b h
    obtain ⟨c, r, t, es⟩ := b
    simp only at h
    subst h
    rfl
  have h2 : (Agent.stop X a).1.running_ = false := by
    unfold Agent.stop
    simp only []
    split_ifs <;> rfl
  refine ⟨h1 a, h1 _ h2, ?_⟩
  intro h
  obtain ⟨c, r, ⟨j⟩, es⟩ := a
  simp only at h
  subst h
  cases j <;> simp [Agent.stop, for_each_exporter_eq]

/-- C7 at the Agent built from the default configuration: started and then stopped, each
exporter is stopped once; a second `stop()`, and a `stop()` on the Agent that was never
started, do nothing. -/
theorem C7_agent_stop_idempotent_witness :
    (Agent.stop (Exporter.vtable (fun n : Nat => toString n) "")
        (Agent.start (Exporter.vtable (fun n : Nat => toString n) "") (Agent.new {})).2.1).2 =
      [.cout "Stopping InfraMind agent\n",
       .thread_join "Agent::collect_loop",
       .thread_join "PrometheusExporter::serve",
       .cout "Logging exporter stopped\n"] ∧
    Agent.stop (Exporter.vtable (fun n : Nat => toString n) "") (Agent.new {}) =
      (Agent.new {}, []) :=
  ⟨((C7_agent_stop_idempotent (Exporter.vtable (fun n : Nat => toString n) "")
      (Agent.start (Exporter.vtable (fun n : Nat => toString n) "") (Agent.new {})).2.1).2.2
      (by decide)).2.trans (by decide),
   (C7_agent_stop_idempotent (Exporter.vtable (fun n : Nat => toString n) "")
      (Agent.new {})).1 (by decide)⟩

/-! ## C3, C4, C9: failures inside a cycle -/

/-- C3: in a cycle where some collectors throw and the others return, the merged snapshot
is the one the returning collectors alone would produce: a throwing collector contributes
no entry, every name returned by a returning collector is present (with the value of the
first returning collector that emitted it), nothing else is present, and each throwing
collector costs one line on `std::cerr` while the pass goes on through the whole list.
The export loop then runs on this accumulator: when no exporter throws, every exporter
in registration order receives it. -/
theorem C3_collector_failures_isolated {σ V : Type} (X : ExporterClass σ V) (config_ : Config)
    (exporters_ : List σ) (c : Cycle V) :
    (collect_all c.collectors).1 =
      (collect_all (c.collectors.filter (fun r => r.collect.toOption.isSome))).1 ∧
    (∀ k, (collect_all c.collectors).1.gauges.find k =
      (returned_snapshots c.collectors).findSome? (fun m => m.gauges.find k)) ∧
    (∀ k, (collect_all c.collectors).1.counters.find k =
      (returned_snapshots c.collectors).findSome? (fun m => m.counters.find k)) ∧
    (∀ k, k ∈ (collect_all c.collectors).1.gauges.keys ↔
      ∃ m ∈ returned_snapshots c.collectors, k ∈ m.gauges.keys) ∧
    (∀ k, k ∈ (collect_all c.collectors).1.counters.keys ↔
      ∃ m ∈ returned_snapshots c.collectors, k ∈ m.counters.keys) ∧
    (collect_all c.collectors).2 = c.collectors.filterMap (fun r =>
      match r.collect with
      | .error what => some ("Collector " ++ r.name ++ " failed: " ++ what ++ "\n")
      | .ok _ => none) ∧
    (collect_cycle X config_ exporters_ c).exporters =
      (export_all X (collect_all c.collectors).1 exporters_).exporters ∧
    (collect_cycle X config_ exporters_ c).thrown =
      (export_all X (collect_all c.collectors).1 exporters_).thrown ∧
    ((∀ e ∈ exporters_, ∃ r, X.export_metrics e (collect_all c.collectors).1 = .ok r) →
      (collect_cycle X config_ exporters_ c).thrown = none ∧
      (collect_cycle X config_ exporters_ c).exporters = exporters_.map (fun e =>
        match X.export_metrics e (collect_all c.collectors).1 with
        | .ok r => r.1
        | .error _ => e)) := by
  refine ⟨collect_fold_filter _ _ _ rfl, collect_all_find_gauges _, collect_all_find_counters _,
    collect_all_keys_gauges _, collect_all_keys_counters _, ?_,
    (collect_cycle_exporters X config_ exporters_ c).1,
    (collect_cycle_exporters X config_ exporters_ c).2, ?_⟩
  · unfold collect_all
    rw [collect_fold_log]
    simp
  · intro h
    have := export_all_of_ok X _ exporters_ h
    rw [(collect_cycle_exporters X config_ exporters_ c).1,
      (collect_cycle_exporters X config_ exporters_ c).2]
    exact this

/-- C3 at the Agent built from the default configuration, in a cycle where `cpu` returns
gauge `x`, `mem` throws and `io` returns counter `y`: the Prometheus exporter ends up
holding `x` and `y`, the failure of `mem` is logged, and the cycle completes. -/
theorem C3_collector_failures_isolated_witness :
    (collect_cycle (Exporter.vtable (fun n : Nat => toString n) "") {}
        (Agent.new {}).exporters_
        ⟨true, [⟨"cpu", .ok { gauges := [("x", 1)] }⟩,
                ⟨"mem", .error "Failed to open /proc/meminfo"⟩,
                ⟨"io", .ok { counters := [("y", 2)] }⟩], 10⟩).thrown = none ∧
    (collect_cycle (Exporter.vtable (fun n : Nat => toString n) "") {}
        (Agent.new {}).exporters_
        ⟨true, [⟨"cpu", .ok { gauges := [("x", 1)] }⟩,
                ⟨"mem", .error "Failed to open /proc/meminfo"⟩,
                ⟨"io", .ok { counters := [("y", 2)] }⟩], 10⟩).exporters =
      [.prometheus { port_ := 9102,
                     current_metrics_ := { gauges := [("x", 1)], counters := [("y", 2)] } },
       .logging { level_ := "info" }] ∧
    (collect_all [⟨"cpu", .ok { gauges := [("x", 1)] }⟩,
                  ⟨"mem", .error "Failed to open /proc/meminfo"⟩,
                  ⟨"io", .ok { counters := [("y", 2)] }⟩] : Metrics Nat × List String).2 =
      ["Collector mem failed: Failed to open /proc/meminfo\n"] :=
  have h := C3_collector_failures_isolated (Exporter.vtable (fun n : Nat => toString n) "") {}
    (Agent.new {}).exporters_
    ⟨true, [⟨"cpu", .ok { gauges := [("x", 1)] }⟩,
            ⟨"mem", .error "Failed to open /proc/meminfo"⟩,
            ⟨"io", .ok { counters := [("y", 2)] }⟩], 10⟩
  ⟨(h.2.2.2.2.2.2.2.2 (fun e _ => by cases e <;> exact ⟨_, rfl⟩)).1,
   (h.2.2.2.2.2.2.2.2 (fun e _ => by cases e <;> exact ⟨_, rfl⟩)).2.trans (by decide),
   h.2.2.2.2.2.1.trans (by decide)⟩

theorem collect_fold_all_failed {V : Type} (runs : List (CollectorRun V))
    (st : Metrics V × List String) (h : ∀ r ∈ runs, ∃ what, r.collect = .error what) :
    (runs.foldl collect_step st).1 = st.1 := by
  induction runs generalizing st with
  | nil => rfl
  | cons c rest ih =>
    obtain ⟨w, hw⟩ := h c (List.mem_cons_self _ _)
    rw [List.foldl_cons, ih _ (fun r hr => h r (List.mem_cons_of_mem _ hr))]
    simp [collect_step, hw]

/-- C4, amended: if every collector throws in a cycle, the accumulator of that cycle is
the empty snapshot and the export loop passes it on like any other: after the cycle the
cell of each `PrometheusExporter` holds the empty snapshot, not the snapshot of an
earlier cycle, and `format_metrics` renders the empty document. -/
theorem C4_failed_cycle_exports_empty {V : Type} (fmt : V → String) (ts : String)
    (config_ : Config) (exporters_ : List (Exporter V)) (c : Cycle V)
    (hfail : ∀ r ∈ c.collectors, ∃ what, r.collect = .error what) :
    (collect_all c.collectors).1 = {} ∧
    (collect_cycle (Exporter.vtable fmt ts) config_ exporters_ c).thrown = none ∧
    (collect_cycle (Exporter.vtable fmt ts) config_ exporters_ c).exporters =
      exporters_.map (fun x =>
        match x with
        | .prometheus e => .prometheus { e with current_metrics_ := {} }
        | .logging e => .logging e) ∧
    (∀ e, Exporter.prometheus e ∈
        (collect_cycle (Exporter.vtable fmt ts) config_ exporters_ c).exporters →
      e.current_metrics_ = {} ∧ e.format_metrics fmt = "") := by
  have hacc : (collect_all c.collectors).1 = {} := collect_fold_all_failed _ _ hfail
  have hok : ∀ e ∈ exporters_, ∃ r,
      (Exporter.vtable fmt ts).export_metrics e (collect_all c.collectors).1 = .ok r := by
    intro e _
    cases e <;> exact ⟨_, rfl⟩
  have hx := export_all_of_ok (Exporter.vtable fmt ts) _ exporters_ hok
  have hc := collect_cycle_exporters (Exporter.vtable fmt ts) config_ exporters_ c
  have hexp : (collect_cycle (Exporter.vtable fmt ts) config_ exporters_ c).exporters =
      exporters_.map (fun x =>
        match x with
        | .prometheus e => .prometheus { e with current_metrics_ := {} }
        | .logging e => .logging e) := by
    rw [hc.1, hx.2, hacc]
    apply List.map_congr_left
    intro x _
    cases x with
    | prometheus e => rfl
    | logging e =>
      simp only [Exporter.vtable, LoggingExporter.export_metrics]
      split_ifs <;> rfl
  refine ⟨hacc, by rw [hc.2]; exact hx.1, hexp, ?_⟩
  intro e he
  rw [hexp] at he
  obtain ⟨x, _, hx⟩ := List.mem_map.1 he
  cases x with
  | prometheus e' =>
    simp only [Exporter.prometheus.injEq] at hx
    subst hx
    exact ⟨rfl, rfl⟩
  | logging e' => simp at hx

/-- C4, amended, at the Agent of the default configuration whose Prometheus exporter holds
gauge `x` from an earlier cycle: a cycle in which the only collector throws empties the
cell. -/
theorem C4_failed_cycle_exports_empty_witness :
    (collect_cycle (Exporter.vtable (fun n : Nat => toString n) "") {}
        [.prometheus { port_ := 9102, current_metrics_ := { gauges := [("x", 1)] } },
         .logging {}]
        ⟨true, [⟨"cpu", .error "Failed to open /proc/stat"⟩], 10⟩).exporters =
      [.prometheus { port_ := 9102, current_metrics_ := {} }, .logging {}] :=
  (C4_failed_cycle_exports_empty (fun n : Nat => toString n) "" {}
    [.prometheus { port_ := 9102, current_metrics_ := { gauges := [("x", 1)] } }, .logging {}]
    ⟨true, [⟨"cpu", .error "Failed to open /proc/stat"⟩], 10⟩
    (fun r hr => by
      rw [List.mem_singleton] at hr
      subst hr
      exact ⟨_, rfl⟩)).2.2.1.trans (by decide)

/-- C4, as stated, fails: the loop of the default Agent runs a cycle in which `cpu`
returns gauge `x`, then a cycle in which `cpu` throws. After the first cycle the
Prometheus exporter renders `x`; after the second its cell is empty and it renders the
empty document, not the document of the first cycle. -/
theorem C4_last_snapshot_kept_counterexample :
    (collect_loop (Exporter.vtable (fun n : Nat => toString n) "") {}
        [⟨true, [⟨"cpu", .ok { gauges := [("x", 1)] }⟩], 10⟩]
        (Agent.new {}).exporters_).1 =
      [.prometheus { port_ := 9102, current_metrics_ := { gauges := [("x", 1)] } },
       .logging {}] ∧
    PrometheusExporter.format_metrics (fun n : Nat => toString n)
        { port_ := 9102, current_metrics_ := { gauges := [("x", 1)] } } =
      "# TYPE x gauge\nx 1\n" ∧
    (collect_loop (Exporter.vtable (fun n : Nat => toString n) "") {}
        [⟨true, [⟨"cpu", .ok { gauges := [("x", 1)] }⟩], 10⟩,
         ⟨true, [⟨"cpu", .error "Failed to open /proc/stat"⟩], 10⟩]
        (Agent.new {}).exporters_).1 =
      [.prometheus { port_ := 9102, current_metrics_ := {} }, .logging {}] ∧
    PrometheusExporter.format_metrics (fun n : Nat => toString n)
        { port_ := 9102, current_metrics_ := {} } ≠ "# TYPE x gauge\nx 1\n" := by
  decide

/-- When `export_metrics` of one exporter throws and those before it return, the
exception leaves the export loop: the exporters after it are left as they were. -/
theorem export_all_of_throw {σ V : Type} (X : ExporterClass σ V) (acc : Metrics V)
    (before after : List σ) (e : σ) (what : String)
    (hbefore : ∀ b ∈ before, ∃ r, X.export_metrics b acc = .ok r)
    (he : X.export_metrics e acc = .error what) :
    (export_all X acc (before ++ e :: after)).thrown = some what ∧
    (export_all X acc (before ++ e :: after)).exporters =
      before.map (fun b =>
        match X.export_metrics b acc with
        | .ok r => r.1
        | .error _ => b) ++ e :: after := by
  induction before with
  | nil => simp [export_all, he]
  | cons b rest ih =>
    obtain ⟨r, hr⟩ := hbefore b (List.mem_cons_self _ _)
    have ih' := ih (fun b' hb' => hbefore b' (List.mem_cons_of_mem _ hb'))
    simp only [List.cons_append, export_all, hr, List.map_cons]
    exact ⟨ih'.1, congrArg (List.cons r.1) ih'.2⟩

/-- C9 on the code: with an exporter that throws registered before a Prometheus
exporter, the cycle ends with the exception; the Prometheus exporter has not received
the accumulator (its cell is still empty), and `collect_loop` is left with the exception
instead of going on to the next cycle. -/
theorem C9_export_exception_leaves_loop :
    (collect_cycle (Exporter.vtable_with_throwing (fun n : Nat => toString n) "") {}
        [.inr ⟨"export failed"⟩, .inl (.prometheus { port_ := 9102 })]
        ⟨true, [⟨"cpu", .ok { gauges := [("x", 1)] }⟩], 10⟩).thrown = some "export failed" ∧
    (collect_cycle (Exporter.vtable_with_throwing (fun n : Nat => toString n) "") {}
        [.inr ⟨"export failed"⟩, .inl (.prometheus { port_ := 9102 })]
        ⟨true, [⟨"cpu", .ok { gauges := [("x", 1)] }⟩], 10⟩).exporters =
      [.inr ⟨"export failed"⟩, .inl (.prometheus { port_ := 9102, current_metrics_ := {} })] ∧
    collect_loop (Exporter.vtable_with_throwing (fun n : Nat => toString n) "") {}
        [⟨true, [⟨"cpu", .ok { gauges := [("x", 1)] }⟩], 10⟩,
         ⟨true, [⟨"cpu", .ok { gauges := [("x", 2)] }⟩], 10⟩]
        [.inr ⟨"export failed"⟩, .inl (.prometheus { port_ := 9102 })] =
      ([.inr ⟨"export failed"⟩, .inl (.prometheus { port_ := 9102 })], [],
       .terminated "export failed") := by
  decide

/-! ## C10: no torn document -/

namespace Interleaving

variable {V : Type}

theorem writer_idle_of_unlocked {e0 : PrometheusExporter V} {exports : List (Metrics V)}
    {cell : Metrics V} {mutex : Option Tid} {pc : WriterPc V}
    (h : WriterOk e0 exports cell mutex pc) (hm : mutex ≠ some .writer) : pc = .idle := by
  cases pc with
  | idle => rfl
  | locked m => exact absurd h.2.2 hm
  | gauges_copied m => exact absurd h.2.2 hm
  | counters_copied m => exact absurd h.2.2 hm

theorem reader_idle_of_unlocked {fmt : V → String} {cell : Metrics V} {mutex : Option Tid}
    {i : Nat} {pc : ReaderPc} (h : ReaderOk fmt cell mutex i pc)
    (hm : mutex ≠ some (.reader i)) : pc = .idle := by
  cases pc with
  | idle => rfl
  | in_gauges oss pos => exact absurd h.1 hm
  | in_counters oss pos => exact absurd h.1 hm

theorem init_inv (fmt : V → String) (e0 : PrometheusExporter V) (exports : List (Metrics V)) :
    Inv fmt e0 exports (init e0 exports) where
  pending := fun _ h => h
  writer := ⟨Or.inl rfl, by simp [init]⟩
  readers := fun i => by simp [init, ReaderOk]
  documents := by simp [init]

theorem step_writer_inv (fmt : V → String) (e0 : PrometheusExporter V)
    (exports : List (Metrics V)) (s : State V) (h : Inv fmt e0 exports s) :
    Inv fmt e0 exports (step fmt s .writer) := by
  obtain ⟨hp, hw, hr, hd⟩ := h
  have hidle : ∀ mutex', s.metrics_mutex_ = none ∨ s.metrics_mutex_ = some .writer →
      (∀ i, mutex' ≠ some (Tid.reader i)) → ∀ cell' i,
      ReaderOk fmt cell' mutex' i (s.readers i) := by
    intro mutex' hm hne cell' i
    have : s.readers i = .idle := by
      apply reader_idle_of_unlocked (hr i)
      rcases hm with hm | hm <;> simp [hm]
    rw [this]
    exact hne i
  cases hpc : s.writer with
  | idle =>
    cases hpend : s.pending with
    | nil =>
      have : step fmt s .writer = s := by simp [step, hpc, hpend]
      rw [this]; exact ⟨hp, hw, hr, hd⟩
    | cons m rest =>
      by_cases hm : s.metrics_mutex_ = none
      · have : step fmt s .writer =
            { s with metrics_mutex_ := some .writer, writer := .locked m, pending := rest } := by
          simp [step, hpc, hpend, hm]
        rw [this]
        rw [hpc] at hw
        refine ⟨?_, ?_, ?_, hd⟩
        · intro m' hm'
          exact hp m' (by rw [hpend]; exact List.mem_cons_of_mem _ hm')
        · exact ⟨hp m (by rw [hpend]; exact List.mem_cons_self _ _), hw.1, rfl⟩
        · exact hidle _ (Or.inl hm) (by simp) _
      · have : step fmt s .writer = s := by simp [step, hpc, hpend, hm]
        rw [this]; exact ⟨hp, hw, hr, hd⟩
  | locked m =>
    have : step fmt s .writer =
        { s with
          exporter := { s.exporter with
            current_metrics_ := { s.exporter.current_metrics_ with gauges := m.gauges } },
          writer := .gauges_copied m } := by
      simp [step, hpc]
    rw [this]
    rw [hpc] at hw
    refine ⟨hp, ⟨hw.1, rfl, hw.2.2⟩, ?_, hd⟩
    exact hidle _ (Or.inr hw.2.2) (by simp [hw.2.2]) _
  | gauges_copied m =>
    have : step fmt s .writer =
        { s with
          exporter := { s.exporter with
            current_metrics_ := { s.exporter.current_metrics_ with counters := m.counters } },
          writer := .counters_copied m } := by
      simp [step, hpc]
    rw [this]
    rw [hpc] at hw
    refine ⟨hp, ⟨hw.1, ?_, hw.2.2⟩, ?_, hd⟩
    · obtain ⟨g, c⟩ := m
      simp only at hw ⊢
      rw [hw.2.1]
    · exact hidle _ (Or.inr hw.2.2) (by simp [hw.2.2]) _
  | counters_copied m =>
    have : step fmt s .writer = { s with metrics_mutex_ := none, writer := .idle } := by
      simp [step, hpc]
    rw [this]
    rw [hpc] at hw
    refine ⟨hp, ⟨?_, by simp⟩, ?_, hd⟩
    · rw [hw.2.1]; exact Or.inr hw.1
    · exact hidle _ (Or.inr hw.2.2) (by simp) _


theorem take_succ_of_getElem {α : Type} (l : List α) (pos : Nat) (x : α)
    (h : l[pos]? = some x) : l.take (pos + 1) = l.take pos ++ [x] := by
  rw [List.take_succ, h]
  rfl

theorem take_of_getElem_none {α : Type} (l : List α) (pos : Nat) (h : l[pos]? = none) :
    l.take pos = l :=
  List.take_of_length_le (List.getElem?_eq_none_iff.1 h)

theorem step_reader_inv (fmt : V → String) (e0 : PrometheusExporter V)
    (exports : List (Metrics V)) (s : State V) (h : Inv fmt e0 exports s) (i : Nat) :
    Inv fmt e0 exports (step fmt s (.reader i)) := by
  obtain ⟨hp, hw, hr, hd⟩ := h
  -- while reader `i` moves, every other reader keeps its position
  have hother : ∀ pc j, j ≠ i → Function.update s.readers i pc j = s.readers j := by
    intro pc j hj
    exact Function.update_noteq hj _ _
  -- a reader other than `i` is idle when `i` owns the mutex or nobody does
  have hidle : ∀ j, j ≠ i → s.metrics_mutex_ = none ∨ s.metrics_mutex_ = some (.reader i) →
      s.readers j = .idle := by
    intro j hj hm
    apply reader_idle_of_unlocked (hr j)
    rcases hm with hm | hm
    · simp [hm]
    · simp [hm, Ne.symm hj]
  -- a step that only moves reader `i` to a position that is fine keeps the invariant
  have hmove : ∀ pc, ReaderOk fmt s.exporter.current_metrics_ s.metrics_mutex_ i pc →
      step fmt s (.reader i) = { s with readers := Function.update s.readers i pc } →
      Inv fmt e0 exports (step fmt s (.reader i)) := by
    intro pc hpc hstep
    rw [hstep]
    refine ⟨hp, hw, ?_, hd⟩
    intro j
    by_cases hj : j = i
    · subst hj
      show ReaderOk fmt _ _ j (Function.update s.readers j pc j)
      rw [Function.update_same]
      exact hpc
    · show ReaderOk fmt _ _ j (Function.update s.readers i pc j)
      rw [hother _ j hj]
      exact hr j
  cases hpc : s.readers i with
  | idle =>
    by_cases hm : s.metrics_mutex_ = none
    · have : step fmt s (.reader i) =
          { s with metrics_mutex_ := some (.reader i),
                   readers := Function.update s.readers i (.in_gauges "" 0) } := by
        simp [step, hpc, hm]
      rw [this]
      have hwi : s.writer = .idle := writer_idle_of_unlocked hw (by simp [hm])
      rw [hwi] at hw
      refine ⟨hp, ?_, ?_, hd⟩
      · show WriterOk e0 exports _ _ s.writer
        rw [hwi]
        exact ⟨hw.1, by simp⟩
      · intro j
        by_cases hj : j = i
        · subst hj
          simp [ReaderOk, PrometheusExporter.format_gauges]
        · show ReaderOk fmt _ _ j (Function.update s.readers i (.in_gauges "" 0) j)
          rw [hother _ j hj, hidle j hj (Or.inl hm)]
          simp [ReaderOk, Ne.symm hj]
    · have : step fmt s (.reader i) = s := by simp [step, hpc, hm]
      rw [this]; exact ⟨hp, hw, hr, hd⟩
  | in_gauges oss pos =>
    have hi := hr i
    rw [hpc] at hi
    cases hg : s.exporter.current_metrics_.gauges[pos]? with
    | some nv =>
      refine hmove (.in_gauges (PrometheusExporter.append_gauge fmt oss nv) (pos + 1))
        ⟨hi.1, ?_⟩ (by simp [step, hpc, hg])
      rw [take_succ_of_getElem _ _ _ hg, hi.2]
      simp [PrometheusExporter.format_gauges]
    | none =>
      refine hmove (.in_counters oss 0) ⟨hi.1, ?_⟩ (by simp [step, hpc, hg])
      rw [hi.2, take_of_getElem_none _ _ hg]
      simp [PrometheusExporter.format_counters]
  | in_counters oss pos =>
    have hi := hr i
    rw [hpc] at hi
    cases hg : s.exporter.current_metrics_.counters[pos]? with
    | some nv =>
      refine hmove (.in_counters (PrometheusExporter.append_counter fmt oss nv) (pos + 1))
        ⟨hi.1, ?_⟩ (by simp [step, hpc, hg])
      rw [take_succ_of_getElem _ _ _ hg, hi.2]
      simp [PrometheusExporter.format_counters]
    | none =>
      have : step fmt s (.reader i) =
          { s with metrics_mutex_ := none,
                   readers := Function.update s.readers i .idle,
                   documents := s.documents ++ [oss] } := by
        simp [step, hpc, hg]
      rw [this]
      have hwi : s.writer = .idle := writer_idle_of_unlocked hw (by simp [hi.1])
      rw [hwi] at hw
      refine ⟨hp, ?_, ?_, ?_⟩
      · show WriterOk e0 exports _ _ s.writer
        rw [hwi]
        exact ⟨hw.1, by simp⟩
      · intro j
        by_cases hj : j = i
        · subst hj
          simp [ReaderOk]
        · show ReaderOk fmt _ _ j (Function.update s.readers i .idle j)
          rw [hother _ j hj, hidle j hj (Or.inr hi.1)]
          simp [ReaderOk]
      · intro d hdm
        rcases List.mem_append.1 hdm with hdm | hdm
        · exact hd d hdm
        · rw [List.mem_singleton] at hdm
          subst hdm
          refine ⟨_, hw.1, ?_⟩
          rw [hi.2, take_of_getElem_none _ _ hg]
          rfl

theorem run_inv (fmt : V → String) (e0 : PrometheusExporter V) (exports : List (Metrics V))
    (schedule : List Tid) (s : State V) (h : Inv fmt e0 exports s) :
    Inv fmt e0 exports (run fmt s schedule) := by
  induction schedule generalizing s with
  | nil => exact h
  | cons t rest ih =>
    unfold run
    rw [List.foldl_cons]
    apply ih
    cases t with
    | writer => exact step_writer_inv fmt e0 exports s h
    | reader i => exact step_reader_inv fmt e0 exports s h i

end Interleaving

/-- C10: for every schedule interleaving the steps of the thread that calls
`export_metrics` on the snapshots `exports` with the steps of any number of threads that
call `format_metrics` on the same exporter, each document returned is the rendering of
one complete snapshot: the document `format_metrics` gives for the cell as it was at the
start (empty for a fresh exporter), or the document it gives right after
`export_metrics(m)` for one of the exported snapshots `m`; never a mixture of two. -/
theorem C10_no_torn_document {V : Type} (fmt : V → String) (e : PrometheusExporter V)
    (exports : List (Metrics V)) (schedule : List Interleaving.Tid) :
    ∀ doc ∈ (Interleaving.run fmt (Interleaving.init e exports) schedule).documents,
      doc = e.format_metrics fmt ∨
      ∃ m ∈ exports, doc = (e.export_metrics m).format_metrics fmt := by
  intro doc hdoc
  obtain ⟨m, hm, rfl⟩ :=
    (Interleaving.run_inv fmt e exports schedule _
      (Interleaving.init_inv fmt e exports)).documents doc hdoc
  rcases hm with hm | hm
  · left
    rw [hm]
    rfl
  · right
    exact ⟨m, hm, rfl⟩

/-- C10 on a run with two readers and one writer that exports two snapshots: the
schedule lets reader 0 render before the first export, reader 1 between the two, and
reader 0 again after the second, with steps of the other threads in between that find
the mutex taken; the three documents are those of the empty, the first and the second
snapshot. -/
theorem C10_no_torn_document_witness :
    (Interleaving.run (fun n : Nat => toString n)
        (Interleaving.init { port_ := 9102 }
          [{ gauges := [("g", 1)], counters := [("c", 1)] },
           { gauges := [("g", 2)], counters := [("c", 2)] }])
        [.reader 0, .writer, .reader 0, .reader 0, .writer, .reader 1, .writer, .writer,
         .writer, .reader 1, .writer, .reader 1, .reader 1, .reader 0, .reader 1, .reader 1,
         .writer, .writer, .writer, .writer, .reader 0, .reader 0, .reader 0, .reader 0,
         .reader 0]).documents =
      ["", "# TYPE g gauge\ng 1\n# TYPE c counter\nc 1\n",
       "# TYPE g gauge\ng 2\n# TYPE c counter\nc 2\n"] ∧
    ∀ doc ∈ (Interleaving.run (fun n : Nat => toString n)
        (Interleaving.init { port_ := 9102 }
          [{ gauges := [("g", 1)], counters := [("c", 1)] },
           { gauges := [("g", 2)], counters := [("c", 2)] }])
        [.reader 0, .writer, .reader 0, .reader 0, .writer, .reader 1, .writer, .writer,
         .writer, .reader 1, .writer, .reader 1, .reader 1, .reader 0, .reader 1, .reader 1,
         .writer, .writer, .writer, .writer, .reader 0, .reader 0, .reader 0, .reader 0,
         .reader 0]).documents,
      doc = PrometheusExporter.format_metrics (fun n : Nat => toString n) { port_ := 9102 } ∨
      ∃ m ∈ [({ gauges := [("g", 1)], counters := [("c", 1)] } : Metrics Nat),
             { gauges := [("g", 2)], counters := [("c", 2)] }],
        doc = PrometheusExporter.format_metrics (fun n : Nat => toString n)
          (PrometheusExporter.export_metrics { port_ := 9102 } m) :=
  ⟨by decide, C10_no_torn_document _ _ _ _⟩

end im
